import Mathlib

/-!
# Verification of `finance_tracker.py`

A shallow embedding of the personal finance tracker: the `Transaction` data
model, JSON persistence (`load_data` / `save_data`), the store mutators
(`add_transaction`, `set_budget`) and the reporting functions
(`get_transactions_by_period`, `get_spending_by_category`,
`get_income_vs_expenses`, `check_budgets`, `get_financial_insights`).

Modelling conventions:
* Python floats are modelled as `ℚ` (exact rationals).
* `datetime.now()` is passed explicitly: `now : ℚ` is the current time in days
  since the civil epoch used by `daysFromCivil`, and `nowDate : String` is the
  current date string `datetime.now().strftime("%Y-%m-%d")`.
* Python exceptions are modelled by `Except PyErr`.  `PyErr.valueError` is the
  `ValueError` raised by `datetime.strptime` on a bad date (the spec's
  `DateParseError`); `PyErr.keyError` is the `KeyError` on a record missing a
  required field (the spec's `MissingFieldError`); `PyErr.jsonDecodeError` is
  `json.JSONDecodeError`; `PyErr.attrTypeError` stands for the
  `TypeError`/`AttributeError` class raised when a JSON value has the wrong
  shape (not a dict where a dict is expected, a non-string where a string
  method is called, ...).
* The persisted JSON document is modelled by the inductive `JValue`; the raw
  file is `FileState`: missing, syntactically invalid JSON, or a parsed value.
-/

set_option maxHeartbeats 1000000

namespace FinanceTracker

/-- Model of Python `str.lower()`: map `Char.toLower` over the characters.
(Python lowercases the full Unicode range; the tracker only ever lowercases
category and type strings, for which the ASCII mapping is the behaviour the
spec describes.) -/
def pyLower (s : String) : String :=
  ⟨s.data.map Char.toLower⟩

/-- Python exception classes relevant to the tracker, see the module header. -/
inductive PyErr where
  | jsonDecodeError
  | keyError
  | attrTypeError
  | valueError
deriving DecidableEq, Repr

/-! ## Date parsing: `datetime.strptime(s, "%Y-%m-%d")` -/

/-- Split a character list at `-` separators (model of the fixed-format
`strptime` pattern `%Y-%m-%d` splitting the input at the literal dashes). -/
def splitDash : List Char → List (List Char)
  | [] => [[]]
  | c :: rest =>
    match splitDash rest with
    | [] => [[]]
    | g :: gs => if c = '-' then [] :: g :: gs else (c :: g) :: gs

/-- Numeric value of a digit list (most significant first). -/
def natOfDigits (l : List Char) : Nat :=
  l.foldl (fun n c => n * 10 + (c.toNat - 48)) 0

/-- Gregorian leap-year rule used by `datetime`. -/
def isLeap (y : Nat) : Bool :=
  y % 4 = 0 && (y % 100 ≠ 0 || y % 400 = 0)

/-- Length of month `m` of year `y`, as validated by `datetime(y, m, d)`. -/
def daysInMonth (y m : Nat) : Nat :=
  if m = 2 then (if isLeap y then 29 else 28)
  else if m = 4 ∨ m = 6 ∨ m = 9 ∨ m = 11 then 30
  else 31

/-- Days since 1970-01-01 of the civil date `(y, m, d)` (standard
days-from-civil algorithm); the value `datetime` compares dates by. -/
def daysFromCivil (y m d : Nat) : ℤ :=
  let y' : ℤ := if m ≤ 2 then (y : ℤ) - 1 else (y : ℤ)
  let era : ℤ := y' / 400
  let yoe : ℤ := y' - era * 400
  let mp : ℤ := ((m : ℤ) + 9) % 12
  let doy : ℤ := (153 * mp + 2) / 5 + (d : ℤ) - 1
  let doe : ℤ := yoe * 365 + yoe / 4 - yoe / 100 + doy
  era * 146097 + doe - 719468

/-- Model of `datetime.strptime(s, "%Y-%m-%d")`: `%Y` is exactly four digits,
`%m` and `%d` are one or two digits, and `datetime` validates the ranges
(year ≥ 1, month 1–12, day within the month).  Returns the day number on
success and `none` where `strptime`/`datetime` raise `ValueError`. -/
def parseDate (s : String) : Option ℤ :=
  match splitDash s.data with
  | [ys, ms, ds] =>
    if ys.length = 4 ∧ ys.all Char.isDigit ∧
       1 ≤ ms.length ∧ ms.length ≤ 2 ∧ ms.all Char.isDigit ∧
       1 ≤ ds.length ∧ ds.length ≤ 2 ∧ ds.all Char.isDigit then
      let y := natOfDigits ys
      let m := natOfDigits ms
      let d := natOfDigits ds
      if 1 ≤ y ∧ 1 ≤ m ∧ m ≤ 12 ∧ 1 ≤ d ∧ d ≤ daysInMonth y m then
        some (daysFromCivil y m d)
      else none
    else none
  | _ => none

/-! ## The `Transaction` model -/

/-- Model of `class Transaction`: one financial record.  All six persisted fields. -/
structure Transaction where
  id : ℚ
  amount : ℚ
  category : String
  description : String
  type : String
  date : String
deriving DecidableEq, Repr

/-- Model of `Transaction.__init__`: `now` models `datetime.now().timestamp()` (the
fresh id) and `nowDate` models `datetime.now().strftime("%Y-%m-%d")` (the
default date).  The amount is stored as `abs(amount)`; category and type are
lowercased; the date defaults to today. -/
def Transaction.make (now : ℚ) (nowDate : String) (amount : ℚ)
    (category description transaction_type : String)
    (date : Option String) : Transaction :=
  { id := now
    amount := |amount|
    category := pyLower category
    description := description
    type := pyLower transaction_type
    date := date.getD nowDate }

/-! ## JSON values and (de)serialization -/

/-- JSON values as produced by `json.load` (the subset the tracker's file
format uses: numbers, strings, arrays, objects). -/
inductive JValue where
  | num (q : ℚ)
  | str (s : String)
  | arr (xs : List JValue)
  | obj (fields : List (String × JValue))

/-- First-match lookup in a JSON object's field list (model of Python dict
indexing; `save_data` never writes duplicate keys). -/
def jLookup (fields : List (String × JValue)) (k : String) : Option JValue :=
  match fields with
  | [] => none
  | (k₂, v) :: rest => if k₂ = k then some v else jLookup rest k

/-- Model of `data[k]` on a JSON object: a missing key raises `KeyError`. -/
def jIndex (fields : List (String × JValue)) (k : String) :
    Except PyErr JValue :=
  match jLookup fields k with
  | some v => .ok v
  | none => .error .keyError

/-- Coerce a JSON value to a number; the wrong shape raises
`TypeError`/`AttributeError` downstream in Python, modelled here at the
coercion point. -/
def asNum : JValue → Except PyErr ℚ
  | .num q => .ok q
  | _ => .error .attrTypeError

/-- Coerce a JSON value to a string (see `asNum`). -/
def asStr : JValue → Except PyErr String
  | .str s => .ok s
  | _ => .error .attrTypeError

/-- Model of `Transaction.to_dict`: the persisted record with the six fields. -/
def Transaction.to_dict (t : Transaction) : JValue :=
  .obj [("id", .num t.id), ("amount", .num t.amount),
        ("category", .str t.category), ("description", .str t.description),
        ("type", .str t.type), ("date", .str t.date)]

/-- Model of `Transaction.from_dict`: looks up the five constructor fields (in Python's
evaluation order, so a missing field raises `KeyError` before any shape error),
rebuilds the transaction through the constructor (re-applying `abs` and
`lower`), then overwrites `id` with the persisted `data['id']` instead of a
freshly generated one. -/
def Transaction.from_dict (data : JValue) : Except PyErr Transaction := do
  match data with
  | .obj fs =>
    let amountV ← jIndex fs "amount"
    let categoryV ← jIndex fs "category"
    let descriptionV ← jIndex fs "description"
    let typeV ← jIndex fs "type"
    let dateV ← jIndex fs "date"
    let amount ← asNum amountV
    let category ← asStr categoryV
    let description ← asStr descriptionV
    let ty ← asStr typeV
    let date ← asStr dateV
    let idV ← jIndex fs "id"
    let i ← asNum idV
    pure { id := i
           amount := |amount|
           category := pyLower category
           description := description
           type := pyLower ty
           date := date }
  | _ => .error .attrTypeError

/-! ## The store and persistence -/

/-- The `FinanceTracker` in-memory state: the ordered transaction list and the
category → budget mapping (a Python dict, modelled as an insertion-ordered
association list with distinct keys). -/
structure Store where
  transactions : List Transaction
  budgets : List (String × ℚ)
deriving DecidableEq, Repr

/-- The empty store produced by `__init__` before `load_data` runs. -/
def Store.empty : Store := ⟨[], []⟩

/-- The state of the data file: absent, present but not valid JSON, or
present with a parsed JSON document. -/
inductive FileState where
  | missing
  | invalidJson
  | json (v : JValue)

/-- Model of `data.get('transactions', [])` followed by the list comprehension
`[Transaction.from_dict(t) for t in ...]` (elements decoded left to right,
the first exception propagating). -/
def decode_transactions (v : JValue) : Except PyErr (List Transaction) :=
  match v with
  | .obj fs =>
    match (jLookup fs "transactions").getD (.arr []) with
    | .arr xs => xs.mapM Transaction.from_dict
    | _ => .error .attrTypeError
  | _ => .error .attrTypeError

/-- Model of `data.get('budgets', {})`.  Python stores the dict unvalidated; the typed
model coerces the budget values to numbers at this point (the tracker's own
files always satisfy this). -/
def decode_budgets (v : JValue) : Except PyErr (List (String × ℚ)) :=
  match v with
  | .obj fs =>
    match (jLookup fs "budgets").getD (.obj []) with
    | .obj bs => bs.mapM (fun p =>
        match p.2 with
        | .num q => .ok (p.1, q)
        | _ => .error .attrTypeError)
    | _ => .error .attrTypeError
  | _ => .error .attrTypeError

/-- Model of `FinanceTracker.load_data`, run on the empty store `__init__` created.
A missing file leaves the store empty with no warning; `json.JSONDecodeError`
and `KeyError` are caught, printing a warning and leaving the store empty
(the transactions list comprehension completes before `self.transactions` is
assigned, so a `KeyError` leaves both collections empty); any other exception
propagates.  The `Bool` is true when the warning was printed. -/
def load_data (file : FileState) : Except PyErr (Store × Bool) :=
  match file with
  | .missing => .ok (Store.empty, false)
  | .invalidJson => .ok (Store.empty, true)
  | .json v =>
    match (do
        let ts ← decode_transactions v
        let bs ← decode_budgets v
        pure (ts, bs) : Except PyErr (List Transaction × List (String × ℚ))) with
    | .ok (ts, bs) => .ok (⟨ts, bs⟩, false)
    | .error .jsonDecodeError => .ok (Store.empty, true)
    | .error .keyError => .ok (Store.empty, true)
    | .error e => .error e

/-- Model of `FinanceTracker.save_data`: the JSON document written to the file. -/
def save_data (s : Store) : JValue :=
  .obj [("transactions", .arr (s.transactions.map Transaction.to_dict)),
        ("budgets", .obj (s.budgets.map (fun p => (p.1, .num p.2))))]

/-- Model of `FinanceTracker.add_transaction`: construct through the `Transaction`
constructor (default date = today) and append.  The subsequent `save_data`
call is `save_data` applied to the result. -/
def add_transaction (s : Store) (now : ℚ) (nowDate : String) (amount : ℚ)
    (category description transaction_type : String) : Store :=
  { s with transactions := s.transactions ++
      [Transaction.make now nowDate amount category description
        transaction_type none] }

/-- The keys of an association list, in insertion order. -/
def keysOf (l : List (String × ℚ)) : List String :=
  l.map Prod.fst

/-- Insert-or-overwrite in an insertion-ordered dict (an existing key keeps
its position, a new key is appended) — Python dict assignment. -/
def dictSet (l : List (String × ℚ)) (k : String) (v : ℚ) :
    List (String × ℚ) :=
  if k ∈ keysOf l then
    l.map (fun p => if p.1 = k then (p.1, v) else p)
  else l ++ [(k, v)]

/-- Model of `FinanceTracker.set_budget`: `self.budgets[category.lower()] = amount`. -/
def set_budget (s : Store) (category : String) (amount : ℚ) : Store :=
  { s with budgets := dictSet s.budgets (pyLower category) amount }

/-! ## Reporting -/

/-- Model of `FinanceTracker.get_transactions_by_period`: keep the transactions with
`datetime.strptime(t.date, "%Y-%m-%d") >= now - timedelta(days=days)`.  The
comprehension evaluates left to right, and the first unparseable date raises
`ValueError` out of the whole call. -/
def get_transactions_by_period (now : ℚ) (days : ℤ)
    (ts : List Transaction) : Except PyErr (List Transaction) :=
  match ts with
  | [] => .ok []
  | t :: rest =>
    match parseDate t.date with
    | none => .error .valueError
    | some d =>
      match get_transactions_by_period now days rest with
      | .error e => .error e
      | .ok l => .ok (if now - (days : ℚ) ≤ (d : ℚ) then t :: l else l)

/-- Model of `spending[category] = spending.get(category, 0) + amount` on an
insertion-ordered dict: an existing key is updated in place, a new key is
appended. -/
def dictAdd (l : List (String × ℚ)) (k : String) (v : ℚ) :
    List (String × ℚ) :=
  if k ∈ keysOf l then
    l.map (fun p => if p.1 = k then (p.1, p.2 + v) else p)
  else l ++ [(k, v)]

/-- The body of the grouping loop of `get_spending_by_category`: expense
transactions accumulate into their category, others are skipped. -/
def spendStep (acc : List (String × ℚ)) (t : Transaction) :
    List (String × ℚ) :=
  if t.type = "expense" then dictAdd acc t.category t.amount else acc

/-- The grouping loop of `get_spending_by_category`: fold the period's
transactions, accumulating expense amounts per category. -/
def spendingGroups (period : List Transaction) : List (String × ℚ) :=
  period.foldl spendStep []

/-- Model of `dict(sorted(spending.items(), key=lambda x: x[1], reverse=True))`:
a stable sort by descending total. -/
def sortSpending (l : List (String × ℚ)) : List (String × ℚ) :=
  l.mergeSort (fun a b => b.2 ≤ a.2)

/-- Model of `FinanceTracker.get_spending_by_category`. -/
def get_spending_by_category (now : ℚ) (days : ℤ)
    (ts : List Transaction) : Except PyErr (List (String × ℚ)) := do
  let period ← get_transactions_by_period now days ts
  pure (sortSpending (spendingGroups period))

/-- Model of `sum(t.amount for t in transactions if t.type == ty)`. -/
def sumAmounts (ts : List Transaction) (ty : String) : ℚ :=
  ((ts.filter (fun t => t.type = ty)).map Transaction.amount).sum

/-- The record returned by `get_income_vs_expenses`. -/
structure IncomeExpenses where
  income : ℚ
  expenses : ℚ
  net : ℚ
deriving DecidableEq, Repr

/-- Model of `FinanceTracker.get_income_vs_expenses`. -/
def get_income_vs_expenses (now : ℚ) (days : ℤ)
    (ts : List Transaction) : Except PyErr IncomeExpenses := do
  let period ← get_transactions_by_period now days ts
  pure { income := sumAmounts period "income"
         expenses := sumAmounts period "expense"
         net := sumAmounts period "income" - sumAmounts period "expense" }

/-- First-match lookup with Python's `dict.get(k, 0)` default. -/
def lookup0 : List (String × ℚ) → String → ℚ
  | [], _ => 0
  | (k, v) :: rest, c => if k = c then v else lookup0 rest c

/-- One row of `check_budgets`'s result. -/
structure BudgetStatus where
  budget : ℚ
  spent : ℚ
  remaining : ℚ
  percentage : ℚ
deriving DecidableEq, Repr

/-- Model of `FinanceTracker.check_budgets`: spending is always taken over the default
30-day window; the `budget_amount > 0` guard prevents division by zero. -/
def check_budgets (now : ℚ) (s : Store) :
    Except PyErr (List (String × BudgetStatus)) := do
  let spending ← get_spending_by_category now 30 s.transactions
  pure (s.budgets.map (fun p =>
    let spent := lookup0 spending p.1
    (p.1, ({ budget := p.2
             spent := spent
             remaining := p.2 - spent
             percentage := if p.2 > (0 : ℚ) then spent / p.2 * 100 else 0 } :
      BudgetStatus))))

/-- The recommendation messages of `get_financial_insights`, abstracted from
their f-string texts: the overspending warning (`net < 0`), the
high-spend-ratio warning (`expenses > income * 0.8`), the over-90% budget
alert, and the 75–90% budget warning (which interpolates the percentage). -/
inductive Recommendation where
  | overspending
  | highSpendRatio
  | overBudget90 (category : String)
  | budgetWarning75 (category : String) (percentage : ℚ)
deriving DecidableEq, Repr

/-- Model of `max(expenses)` over a nonempty list (0 is never taken: the caller guards
with `if expenses else 0`). -/
def maxQ : List ℚ → ℚ
  | [] => 0
  | x :: xs => xs.foldl max x

/-- Model of `min(expenses)` over a nonempty list. -/
def minQ : List ℚ → ℚ
  | [] => 0
  | x :: xs => xs.foldl min x

/-- Model of `max(spending_by_category, key=spending_by_category.get)`: the first key
carrying the maximal value, in dict iteration order (strictly greater values
displace the current maximum, ties keep the earlier key). -/
def argmaxKey : List (String × ℚ) → String
  | [] => ""
  | (k, v) :: rest => argmaxKeyAux k v rest
where
  argmaxKeyAux (k : String) (v : ℚ) : List (String × ℚ) → String
  | [] => k
  | (k₂, v₂) :: rest =>
    if v < v₂ then argmaxKeyAux k₂ v₂ rest else argmaxKeyAux k v rest

/-- The insight report built when the period is nonempty.  `statistics.mean`
is sum/length; the empty-expense guards return 0. -/
structure Insights where
  period_days : ℤ
  total_transactions : ℕ
  average_expense : ℚ
  largest_expense : ℚ
  smallest_expense : ℚ
  most_expensive_category : String
  recommendations : List Recommendation
deriving DecidableEq, Repr

/-- Result of `get_financial_insights`: either short-circuits with the "No transactions
found for the specified period." message or returns the full report. -/
inductive InsightsResult where
  | noData
  | insights (i : Insights)
deriving DecidableEq, Repr

/-- The budget-warning loop body: per category, the over-90% alert, else the
75–90% warning, else nothing, appended in `budget_status` iteration order. -/
def budgetRecs (bstatus : List (String × BudgetStatus))
    (acc : List Recommendation) : List Recommendation :=
  bstatus.foldl
    (fun acc p =>
      if 90 < p.2.percentage then acc ++ [.overBudget90 p.1]
      else if 75 < p.2.percentage then
        acc ++ [.budgetWarning75 p.1 p.2.percentage]
      else acc)
    acc

/-- Model of `FinanceTracker.get_financial_insights`.  Python's float literal `0.8` is
modelled by the exact rational `8/10`. -/
def get_financial_insights (now : ℚ) (days : ℤ) (s : Store) :
    Except PyErr InsightsResult := do
  let transactions ← get_transactions_by_period now days s.transactions
  if transactions = [] then
    pure .noData
  else
    let expenses := (transactions.filter
      (fun t => t.type = "expense")).map Transaction.amount
    let spending ← get_spending_by_category now days s.transactions
    let ive ← get_income_vs_expenses now days s.transactions
    let recs₀ : List Recommendation := []
    let recs₁ := if ive.net < 0 then recs₀ ++ [.overspending] else recs₀
    let recs₂ := if ive.income * (8 / 10) < ive.expenses then
        recs₁ ++ [.highSpendRatio]
      else recs₁
    let bstatus ← check_budgets now s
    pure (.insights
      { period_days := days
        total_transactions := transactions.length
        average_expense :=
          if expenses ≠ [] then expenses.sum / expenses.length else 0
        largest_expense := if expenses ≠ [] then maxQ expenses else 0
        smallest_expense := if expenses ≠ [] then minQ expenses else 0
        most_expensive_category :=
          if spending ≠ [] then argmaxKey spending else ""
        recommendations := budgetRecs bstatus recs₂ })

/-! ## Spec-side definitions used to state properties -/

/-- The invariant every `Transaction` built by the constructor satisfies:
the amount is non-negative and category and type are already lowercase. -/
def Transaction.wellFormed (t : Transaction) : Prop :=
  0 ≤ t.amount ∧ pyLower t.category = t.category ∧ pyLower t.type = t.type

/-- All dates in a transaction list parse (the precondition under which the
reporting functions do not raise `ValueError`). -/
def allParse (ts : List Transaction) : Prop :=
  ∀ t ∈ ts, (parseDate t.date).isSome

/-- The period-membership test the spec describes: the transaction's date,
parsed as a calendar day, is at least `now - days`. -/
def inPeriod (now : ℚ) (days : ℤ) (t : Transaction) : Bool :=
  decide (now - (days : ℚ) ≤ (((parseDate t.date).getD 0 : ℤ) : ℚ))

/-- Total expense amount of category `c` in a transaction list. -/
def expSum (c : String) (ts : List Transaction) : ℚ :=
  ((ts.filter (fun t => decide (t.type = "expense" ∧ t.category = c))).map
    Transaction.amount).sum

/-- All keys of a budget mapping are lowercase. -/
def lowerKeys (l : List (String × ℚ)) : Prop :=
  ∀ p ∈ l, pyLower p.1 = p.1

/-- The per-category recommendations of `get_financial_insights`, as the spec
states them: the over-90% alert, else the 75–90% warning, else nothing. -/
def perCategoryRecs (p : String × BudgetStatus) : List Recommendation :=
  if 90 < p.2.percentage then [.overBudget90 p.1]
  else if 75 < p.2.percentage then [.budgetWarning75 p.1 p.2.percentage]
  else []

instance (ts : List Transaction) : Decidable (allParse ts) :=
  List.decidableBAll _ ts

instance (l : List (String × ℚ)) : Decidable (lowerKeys l) :=
  List.decidableBAll _ l

instance (t : Transaction) : Decidable t.wellFormed :=
  instDecidableAnd

/-! ## Helper lemmas -/

theorem toLower_idem (c : Char) : c.toLower.toLower = c.toLower := by
  simp only [Char.toLower]
  by_cases h : c.toNat ≥ 65 ∧ c.toNat ≤ 90
  · rw [if_pos h]
    have hv : (c.toNat + 32).isValidChar := by
      left
      omega
    have ht : (Char.ofNat (c.toNat + 32)).toNat = c.toNat + 32 := by
      rw [Char.ofNat, dif_pos hv]
      rfl
    rw [if_neg]
    rw [ht]
    omega
  · rw [if_neg h, if_neg h]

theorem pyLower_idem (s : String) : pyLower (pyLower s) = pyLower s := by
  simp only [pyLower, List.map_map]
  congr 1
  apply List.map_congr_left
  intro c _
  exact toLower_idem c

theorem make_wellFormed (now : ℚ) (nowDate : String) (amount : ℚ)
    (category description transaction_type : String) (date : Option String) :
    (Transaction.make now nowDate amount category description
      transaction_type date).wellFormed := by
  refine ⟨abs_nonneg amount, ?_, ?_⟩ <;> simp [Transaction.make, pyLower_idem]

theorem from_dict_to_dict (t : Transaction) (h : t.wellFormed) :
    Transaction.from_dict t.to_dict = .ok t := by
  obtain ⟨h₁, h₂, h₃⟩ := h
  cases t
  simp_all [Transaction.from_dict, Transaction.to_dict, jIndex, jLookup,
    asNum, asStr, abs_of_nonneg h₁, Bind.bind, Except.bind, Functor.map,
    Except.map, Pure.pure, Except.pure]

theorem mapM_from_dict_map_to_dict (ts : List Transaction)
    (h : ∀ t ∈ ts, t.wellFormed) :
    (ts.map Transaction.to_dict).mapM Transaction.from_dict = .ok ts := by
  induction ts with
  | nil => rfl
  | cons t rest ih =>
    simp only [List.map_cons, List.mapM_cons]
    rw [from_dict_to_dict t (h t (by simp))]
    rw [ih (fun u hu => h u (by simp [hu]))]
    rfl

theorem decode_transactions_save (s : Store)
    (h : ∀ t ∈ s.transactions, t.wellFormed) :
    decode_transactions (save_data s) = .ok s.transactions := by
  simp only [decode_transactions, save_data, jLookup, if_pos]
  simp only [Option.getD_some]
  exact mapM_from_dict_map_to_dict s.transactions h

theorem mapM_budget_map (bs : List (String × ℚ)) :
    (bs.map (fun p => (p.1, JValue.num p.2))).mapM
      (fun p => match p.2 with
        | JValue.num q => Except.ok (p.1, q)
        | _ => Except.error PyErr.attrTypeError) = .ok bs := by
  induction bs with
  | nil => rfl
  | cons b rest ih =>
    simp only [List.map_cons, List.mapM_cons, ih]
    rfl

theorem decode_budgets_save (s : Store) :
    decode_budgets (save_data s) = .ok s.budgets := by
  simp only [decode_budgets, save_data, jLookup]
  rw [if_neg (by decide)]
  simp only [if_true, Option.getD_some]
  exact mapM_budget_map s.budgets

theorem load_save (s : Store) (h : ∀ t ∈ s.transactions, t.wellFormed) :
    load_data (.json (save_data s)) = .ok (s, false) := by
  simp only [load_data, decode_transactions_save s h, decode_budgets_save s,
    Bind.bind, Except.bind, Pure.pure, Except.pure]

theorem period_ok (now : ℚ) (days : ℤ) (ts : List Transaction)
    (h : allParse ts) :
    get_transactions_by_period now days ts =
      .ok (ts.filter (inPeriod now days)) := by
  induction ts with
  | nil => rfl
  | cons t rest ih =>
    have ht : (parseDate t.date).isSome := h t (by simp)
    obtain ⟨d, hd⟩ := Option.isSome_iff_exists.mp ht
    have hrest : allParse rest := fun u hu => h u (by simp [hu])
    simp only [get_transactions_by_period, hd, ih hrest, List.filter_cons]
    by_cases hle : now - (days : ℚ) ≤ (d : ℚ) <;>
      simp [inPeriod, hd, hle]

theorem period_err (now : ℚ) (days : ℤ) (ts : List Transaction)
    (h : ∃ t ∈ ts, parseDate t.date = none) :
    get_transactions_by_period now days ts = .error .valueError := by
  induction ts with
  | nil => simp at h
  | cons t rest ih =>
    by_cases hp : parseDate t.date = none
    · simp only [get_transactions_by_period, hp]
    · obtain ⟨d, hd⟩ := Option.ne_none_iff_exists'.mp hp
      have hrest : ∃ u ∈ rest, parseDate u.date = none := by
        obtain ⟨u, hu, hun⟩ := h
        rcases List.mem_cons.mp hu with rfl | hmem
        · exact absurd hun hp
        · exact ⟨u, hmem, hun⟩
      simp only [get_transactions_by_period, hd, ih hrest]

theorem lookup0_eq_zero (l : List (String × ℚ)) (c : String)
    (h : c ∉ keysOf l) : lookup0 l c = 0 := by
  induction l with
  | nil => rfl
  | cons p rest ih =>
    cases p with
    | mk k v =>
      simp only [keysOf, List.map_cons, List.mem_cons, not_or] at h
      simp only [lookup0]
      rw [if_neg (fun hk => h.1 hk.symm)]
      exact ih h.2

theorem lookup0_append_self (l : List (String × ℚ)) (k : String) (v : ℚ)
    (h : k ∉ keysOf l) : lookup0 (l ++ [(k, v)]) k = v := by
  induction l with
  | nil => simp [lookup0]
  | cons p rest ih =>
    cases p with
    | mk q w =>
      simp only [keysOf, List.map_cons, List.mem_cons, not_or] at h
      simp only [List.cons_append, lookup0]
      rw [if_neg (fun hk => h.1 hk.symm)]
      exact ih h.2

theorem lookup0_append_ne (l : List (String × ℚ)) (k : String) (v : ℚ)
    (c : String) (h : c ≠ k) :
    lookup0 (l ++ [(k, v)]) c = lookup0 l c := by
  induction l with
  | nil =>
    simp only [List.nil_append, lookup0]
    rw [if_neg (fun hk => h hk.symm)]
  | cons p rest ih =>
    cases p with
    | mk q w =>
      simp only [List.cons_append, lookup0]
      by_cases h2 : q = c
      · simp [h2]
      · rw [if_neg h2, if_neg h2]
        exact ih

theorem lookup0_update_add (l : List (String × ℚ)) (k : String) (v : ℚ)
    (hmem : k ∈ keysOf l) :
    lookup0 (l.map (fun p => if p.1 = k then (p.1, p.2 + v) else p)) k =
      lookup0 l k + v := by
  induction l with
  | nil => simp [keysOf] at hmem
  | cons p rest ih =>
    cases p with
    | mk q w =>
      by_cases h1 : q = k
      · subst h1
        simp only [List.map_cons, if_true]
        simp only [lookup0]
        simp only [if_true]
      · have hmem' : k ∈ keysOf rest := by
          simp only [keysOf, List.map_cons, List.mem_cons] at hmem
          rcases hmem with h | h
          · exact absurd h.symm h1
          · exact h
        simp only [List.map_cons]
        rw [if_neg (by simpa using h1)]
        simp only [lookup0]
        rw [if_neg h1, if_neg h1]
        exact ih hmem'

theorem lookup0_update_add_ne (l : List (String × ℚ)) (k : String) (v : ℚ)
    (c : String) (h : c ≠ k) :
    lookup0 (l.map (fun p => if p.1 = k then (p.1, p.2 + v) else p)) c =
      lookup0 l c := by
  induction l with
  | nil => rfl
  | cons p rest ih =>
    cases p with
    | mk q w =>
      by_cases h1 : q = k
      · subst h1
        simp only [List.map_cons, if_true]
        simp only [lookup0]
        rw [if_neg (fun hk => h hk.symm), if_neg (fun hk => h hk.symm)]
        exact ih
      · simp only [List.map_cons]
        rw [if_neg (by simpa using h1)]
        simp only [lookup0]
        by_cases h2 : q = c
        · simp [h2]
        · rw [if_neg h2, if_neg h2]
          exact ih

theorem keysOf_update_add (l : List (String × ℚ)) (k : String) (v : ℚ) :
    keysOf (l.map (fun p => if p.1 = k then (p.1, p.2 + v) else p)) =
      keysOf l := by
  simp only [keysOf, List.map_map]
  apply List.map_congr_left
  intro p _
  by_cases h : p.1 = k <;> simp [h]

theorem keysOf_update_set (l : List (String × ℚ)) (k : String) (v : ℚ) :
    keysOf (l.map (fun p => if p.1 = k then (p.1, v) else p)) = keysOf l := by
  simp only [keysOf, List.map_map]
  apply List.map_congr_left
  intro p _
  by_cases h : p.1 = k <;> simp [h]

theorem dictAdd_lookup0_self (l : List (String × ℚ)) (k : String) (v : ℚ) :
    lookup0 (dictAdd l k v) k = lookup0 l k + v := by
  unfold dictAdd
  by_cases hm : k ∈ keysOf l
  · rw [if_pos hm]
    exact lookup0_update_add l k v hm
  · rw [if_neg hm, lookup0_eq_zero l k hm, zero_add]
    exact lookup0_append_self l k v hm

theorem dictAdd_lookup0_ne (l : List (String × ℚ)) (k : String) (v : ℚ)
    (c : String) (h : c ≠ k) :
    lookup0 (dictAdd l k v) c = lookup0 l c := by
  unfold dictAdd
  by_cases hm : k ∈ keysOf l
  · rw [if_pos hm]
    exact lookup0_update_add_ne l k v c h
  · rw [if_neg hm]
    exact lookup0_append_ne l k v c h

theorem keysOf_dictAdd_mem (l : List (String × ℚ)) (k : String) (v : ℚ)
    (c : String) :
    c ∈ keysOf (dictAdd l k v) ↔ c ∈ keysOf l ∨ c = k := by
  unfold dictAdd
  by_cases hm : k ∈ keysOf l
  · rw [if_pos hm, keysOf_update_add]
    constructor
    · exact Or.inl
    · rintro (h | rfl)
      · exact h
      · exact hm
  · rw [if_neg hm]
    simp [keysOf]

theorem keysOf_dictAdd_nodup (l : List (String × ℚ)) (k : String) (v : ℚ)
    (h : (keysOf l).Nodup) : (keysOf (dictAdd l k v)).Nodup := by
  unfold dictAdd
  by_cases hm : k ∈ keysOf l
  · rw [if_pos hm, keysOf_update_add]
    exact h
  · rw [if_neg hm]
    simp only [keysOf, List.map_append]
    simp only [keysOf] at h hm
    simp [List.nodup_append, h, hm]

theorem spendFold_lookup0 (ts : List Transaction) :
    ∀ (acc : List (String × ℚ)) (c : String),
      lookup0 (ts.foldl spendStep acc) c = lookup0 acc c + expSum c ts := by
  induction ts with
  | nil => simp [expSum]
  | cons t rest ih =>
    intro acc c
    simp only [List.foldl_cons]
    rw [ih]
    by_cases hty : t.type = "expense"
    · by_cases hc : t.category = c
      · subst hc
        rw [show spendStep acc t = dictAdd acc t.category t.amount from
          if_pos hty]
        rw [dictAdd_lookup0_self]
        simp only [expSum, List.filter_cons]
        rw [if_pos (by simp [hty])]
        simp only [List.map_cons, List.sum_cons]
        ring
      · rw [show spendStep acc t = dictAdd acc t.category t.amount from
          if_pos hty]
        rw [dictAdd_lookup0_ne _ _ _ _ (fun hk => hc hk.symm)]
        simp only [expSum, List.filter_cons]
        rw [if_neg (by simp [hty, hc])]
    · rw [show spendStep acc t = acc from if_neg hty]
      simp only [expSum, List.filter_cons]
      rw [if_neg (by simp [hty])]

theorem spendFold_keys_mem (ts : List Transaction) :
    ∀ (acc : List (String × ℚ)) (c : String),
      c ∈ keysOf (ts.foldl spendStep acc) ↔
        c ∈ keysOf acc ∨ ∃ t ∈ ts, t.type = "expense" ∧ t.category = c := by
  induction ts with
  | nil => simp
  | cons t rest ih =>
    intro acc c
    simp only [List.foldl_cons]
    rw [ih]
    by_cases hty : t.type = "expense"
    · rw [show spendStep acc t = dictAdd acc t.category t.amount from
        if_pos hty]
      rw [keysOf_dictAdd_mem]
      constructor
      · rintro ((h | rfl) | h)
        · exact Or.inl h
        · exact Or.inr ⟨t, by simp, hty, rfl⟩
        · obtain ⟨u, hu, h1, h2⟩ := h
          exact Or.inr ⟨u, by simp [hu], h1, h2⟩
      · rintro (h | ⟨u, hu, h1, h2⟩)
        · exact Or.inl (Or.inl h)
        · rcases List.mem_cons.mp hu with rfl | hmem
          · exact Or.inl (Or.inr h2.symm)
          · exact Or.inr ⟨u, hmem, h1, h2⟩
    · rw [show spendStep acc t = acc from if_neg hty]
      constructor
      · rintro (h | ⟨u, hu, h1, h2⟩)
        · exact Or.inl h
        · exact Or.inr ⟨u, by simp [hu], h1, h2⟩
      · rintro (h | ⟨u, hu, h1, h2⟩)
        · exact Or.inl h
        · rcases List.mem_cons.mp hu with rfl | hmem
          · exact absurd h1 hty
          · exact Or.inr ⟨u, hmem, h1, h2⟩

theorem spendFold_keys_nodup (ts : List Transaction) :
    ∀ (acc : List (String × ℚ)), (keysOf acc).Nodup →
      (keysOf (ts.foldl spendStep acc)).Nodup := by
  induction ts with
  | nil => exact fun acc h => h
  | cons t rest ih =>
    intro acc h
    simp only [List.foldl_cons]
    apply ih
    unfold spendStep
    by_cases hty : t.type = "expense"
    · rw [if_pos hty]
      exact keysOf_dictAdd_nodup _ _ _ h
    · rw [if_neg hty]
      exact h

theorem spendingGroups_lookup0 (period : List Transaction) (c : String) :
    lookup0 (spendingGroups period) c = expSum c period := by
  unfold spendingGroups
  rw [spendFold_lookup0]
  simp [lookup0]

theorem spendingGroups_keys_mem (period : List Transaction) (c : String) :
    c ∈ keysOf (spendingGroups period) ↔
      ∃ t ∈ period, t.type = "expense" ∧ t.category = c := by
  unfold spendingGroups
  rw [spendFold_keys_mem]
  simp [keysOf]

theorem spendingGroups_keys_nodup (period : List Transaction) :
    (keysOf (spendingGroups period)).Nodup := by
  unfold spendingGroups
  exact spendFold_keys_nodup period [] (by simp [keysOf])

theorem sortSpending_perm (l : List (String × ℚ)) :
    List.Perm (sortSpending l) l :=
  List.mergeSort_perm l _

theorem sortSpending_sorted (l : List (String × ℚ)) :
    (sortSpending l).Pairwise (fun a b => b.2 ≤ a.2) := by
  have h := @List.sorted_mergeSort (String × ℚ)
    (fun a b : String × ℚ => decide (b.2 ≤ a.2))
    (fun a b c h1 h2 => by
      simp only [decide_eq_true_eq] at h1 h2 ⊢
      exact le_trans h2 h1)
    (fun a b => by
      simp only [Bool.or_eq_true, decide_eq_true_eq]
      exact le_total b.2 a.2)
    l
  exact h.imp (fun hab => by simpa using hab)

theorem lookup0_of_mem (l : List (String × ℚ)) (c : String) (v : ℚ)
    (hnd : (keysOf l).Nodup) (h : (c, v) ∈ l) : lookup0 l c = v := by
  induction l with
  | nil => simp at h
  | cons p rest ih =>
    cases p with
    | mk k w =>
      simp only [keysOf, List.map_cons, List.nodup_cons] at hnd
      rcases List.mem_cons.mp h with heq | hmem
      · obtain ⟨rfl, rfl⟩ := Prod.mk.injEq c v k w ▸ heq
        simp [lookup0]
      · have hck : k ≠ c := by
          intro hk
          subst hk
          exact hnd.1 (List.mem_map_of_mem Prod.fst hmem)
        simp only [lookup0, if_neg hck]
        exact ih hnd.2 hmem

theorem mem_of_keysOf (l : List (String × ℚ)) (c : String)
    (h : c ∈ keysOf l) : (c, lookup0 l c) ∈ l := by
  induction l with
  | nil => simp [keysOf] at h
  | cons p rest ih =>
    cases p with
    | mk k w =>
      by_cases hk : k = c
      · subst hk
        simp [lookup0]
      · have hrest : c ∈ keysOf rest := by
          simp only [keysOf, List.map_cons, List.mem_cons] at h
          rcases h with h | h
          · exact absurd h.symm hk
          · exact h
        simp only [lookup0, if_neg hk]
        exact List.mem_cons_of_mem _ (ih hrest)

theorem lookup0_perm (l₁ l₂ : List (String × ℚ))
    (hp : List.Perm l₁ l₂) (hnd : (keysOf l₁).Nodup) (c : String) :
    lookup0 l₁ c = lookup0 l₂ c := by
  have hnd₂ : (keysOf l₂).Nodup := (hp.map Prod.fst).nodup_iff.mp hnd
  by_cases hm : c ∈ keysOf l₁
  · exact (lookup0_of_mem l₂ c _ hnd₂
      (hp.mem_iff.mp (mem_of_keysOf l₁ c hm))).symm
  · have hm₂ : c ∉ keysOf l₂ := fun hmem =>
      hm ((hp.map Prod.fst).mem_iff.mpr hmem)
    rw [lookup0_eq_zero _ _ hm, lookup0_eq_zero _ _ hm₂]

theorem gsbc_ok (now : ℚ) (days : ℤ) (ts : List Transaction)
    (h : allParse ts) :
    get_spending_by_category now days ts =
      .ok (sortSpending (spendingGroups (ts.filter (inPeriod now days)))) := by
  simp only [get_spending_by_category, period_ok now days ts h, Bind.bind,
    Except.bind, Pure.pure, Except.pure]

theorem spendingResult_nodup (P : List Transaction) :
    (keysOf (sortSpending (spendingGroups P))).Nodup :=
  ((sortSpending_perm (spendingGroups P)).map Prod.fst).nodup_iff.mpr
    (spendingGroups_keys_nodup P)

theorem spendingResult_keys_mem (P : List Transaction) (c : String) :
    c ∈ keysOf (sortSpending (spendingGroups P)) ↔
      ∃ t ∈ P, t.type = "expense" ∧ t.category = c :=
  (((sortSpending_perm (spendingGroups P)).map Prod.fst).mem_iff).trans
    (spendingGroups_keys_mem P c)

theorem spendingResult_lookup0 (P : List Transaction) (c : String) :
    lookup0 (sortSpending (spendingGroups P)) c = expSum c P :=
  (lookup0_perm _ _ (sortSpending_perm (spendingGroups P))
    (spendingResult_nodup P) c).trans (spendingGroups_lookup0 P c)

theorem give_ok (now : ℚ) (days : ℤ) (ts : List Transaction)
    (h : allParse ts) :
    get_income_vs_expenses now days ts = .ok
      { income := sumAmounts (ts.filter (inPeriod now days)) "income"
        expenses := sumAmounts (ts.filter (inPeriod now days)) "expense"
        net := sumAmounts (ts.filter (inPeriod now days)) "income" -
          sumAmounts (ts.filter (inPeriod now days)) "expense" } := by
  simp only [get_income_vs_expenses, period_ok now days ts h, Bind.bind,
    Except.bind, Pure.pure, Except.pure]

theorem check_budgets_ok (now : ℚ) (s : Store)
    (h : allParse s.transactions) :
    check_budgets now s = .ok (s.budgets.map (fun p =>
      (p.1, ({ budget := p.2
               spent := expSum p.1 (s.transactions.filter (inPeriod now 30))
               remaining :=
                 p.2 - expSum p.1 (s.transactions.filter (inPeriod now 30))
               percentage := if p.2 > (0 : ℚ) then
                   expSum p.1 (s.transactions.filter (inPeriod now 30)) /
                     p.2 * 100
                 else 0 } : BudgetStatus)))) := by
  simp only [check_budgets, gsbc_ok now 30 s.transactions h, Bind.bind,
    Except.bind, Pure.pure, Except.pure, Except.ok.injEq]
  apply List.map_congr_left
  intro p _
  rw [spendingResult_lookup0]

theorem budgetRecs_eq (bs : List (String × BudgetStatus)) :
    ∀ acc, budgetRecs bs acc = acc ++ bs.flatMap perCategoryRecs := by
  induction bs with
  | nil => intro acc; simp [budgetRecs]
  | cons b rest ih =>
    intro acc
    simp only [budgetRecs, List.foldl_cons] at ih ⊢
    rw [ih, List.flatMap_cons, ← List.append_assoc]
    congr 1
    unfold perCategoryRecs
    by_cases h1 : 90 < b.2.percentage
    · rw [if_pos h1, if_pos h1]
    · rw [if_neg h1, if_neg h1]
      by_cases h2 : 75 < b.2.percentage
      · rw [if_pos h2, if_pos h2]
      · rw [if_neg h2, if_neg h2, List.append_nil]

theorem from_dict_ok_wellFormed (v : JValue) (t : Transaction)
    (h : Transaction.from_dict v = .ok t) : t.wellFormed := by
  cases v with
  | num q => exact Except.noConfusion h
  | str s => exact Except.noConfusion h
  | arr xs => exact Except.noConfusion h
  | obj fs =>
    simp only [Transaction.from_dict, Bind.bind, Except.bind] at h
    repeat (split at h ; try exact Except.noConfusion h)
    simp only [Pure.pure, Except.pure, Except.ok.injEq] at h
    subst h
    exact ⟨abs_nonneg _, pyLower_idem _, pyLower_idem _⟩

theorem from_dict_ok_amount (v : JValue) (t : Transaction)
    (h : Transaction.from_dict v = .ok t) : ∃ q : ℚ, t.amount = |q| := by
  cases v with
  | num q => exact Except.noConfusion h
  | str s => exact Except.noConfusion h
  | arr xs => exact Except.noConfusion h
  | obj fs =>
    simp only [Transaction.from_dict, Bind.bind, Except.bind] at h
    repeat (split at h ; try exact Except.noConfusion h)
    simp only [Pure.pure, Except.pure, Except.ok.injEq] at h
    subst h
    exact ⟨_, rfl⟩

theorem keysOf_dictSet_self (l : List (String × ℚ)) (k : String) (v : ℚ) :
    k ∈ keysOf (dictSet l k v) := by
  unfold dictSet
  by_cases hm : k ∈ keysOf l
  · rw [if_pos hm, keysOf_update_set]
    exact hm
  · rw [if_neg hm]
    simp [keysOf]

theorem lowerKeys_dictSet (l : List (String × ℚ)) (k : String) (v : ℚ)
    (hl : lowerKeys l) (hk : pyLower k = k) : lowerKeys (dictSet l k v) := by
  unfold dictSet
  by_cases hm : k ∈ keysOf l
  · rw [if_pos hm]
    intro p hp
    obtain ⟨q, hq, rfl⟩ := List.mem_map.mp hp
    by_cases h1 : q.1 = k
    · rw [if_pos h1]
      simpa [h1] using hk
    · rw [if_neg h1]
      exact hl q hq
  · rw [if_neg hm]
    intro p hp
    rcases List.mem_append.mp hp with hmem | hmem
    · exact hl p hmem
    · simp only [List.mem_singleton] at hmem
      subst hmem
      exact hk

/-! ## Claims -/

/-- C1: a load from a missing file returns the empty store (no warning, no
error); a load of a file that is not valid JSON, or whose transactions list
contains a record missing a required field (a `KeyError` during decoding),
returns the empty store with a non-fatal warning — in particular no exception
escapes the load boundary in those cases. -/
theorem spec2proof_C1 :
    load_data .missing = .ok (Store.empty, false) ∧
    load_data .invalidJson = .ok (Store.empty, true) ∧
    ∀ v : JValue, decode_transactions v = .error .keyError →
      load_data (.json v) = .ok (Store.empty, true) := by
  refine ⟨rfl, rfl, ?_⟩
  intro v hv
  simp only [load_data, hv, Bind.bind, Except.bind]

/-- Witness for C1: a persisted transaction record missing the `amount` field
decodes to a `KeyError`, and loading that document yields the empty store
plus the warning. -/
theorem spec2proof_C1_witness :
    decode_transactions (.obj [("transactions", .arr [.obj
        [("category", .str "food"), ("description", .str "x"),
         ("type", .str "expense"), ("date", .str "2025-10-01"),
         ("id", .num 1)]])]) = .error .keyError ∧
    load_data (.json (.obj [("transactions", .arr [.obj
        [("category", .str "food"), ("description", .str "x"),
         ("type", .str "expense"), ("date", .str "2025-10-01"),
         ("id", .num 1)]])])) = .ok (Store.empty, true) :=
  ⟨rfl, spec2proof_C1.2.2 _ rfl⟩

/-- C2: deserializing a serialized transaction restores all six fields, with
the persisted id kept rather than a fresh one; consequently `add_transaction`
followed by a load of the saved file reproduces the whole store, the new
transaction included. -/
theorem spec2proof_C2 :
    (∀ t : Transaction, t.wellFormed →
      Transaction.from_dict t.to_dict = .ok t) ∧
    ∀ (s : Store) (now : ℚ) (nowDate : String) (amount : ℚ)
      (category description transaction_type : String),
      (∀ t ∈ s.transactions, t.wellFormed) →
      (add_transaction s now nowDate amount category description
          transaction_type).transactions =
        s.transactions ++ [Transaction.make now nowDate amount category
          description transaction_type none] ∧
      load_data (.json (save_data (add_transaction s now nowDate amount
          category description transaction_type))) =
        .ok (add_transaction s now nowDate amount category description
          transaction_type, false) := by
  refine ⟨from_dict_to_dict, ?_⟩
  intro s now nowDate a c d ty h
  refine ⟨rfl, ?_⟩
  apply load_save
  intro t ht
  simp only [add_transaction, List.mem_append, List.mem_singleton] at ht
  rcases ht with ht | rfl
  · exact h t ht
  · exact make_wellFormed now nowDate a c d ty none

/-- Witness for C2 at a concrete transaction and a concrete store. -/
theorem spec2proof_C2_witness :
    (Transaction.make 1 "2025-10-01" 50 "food" "x" "expense" none).wellFormed ∧
    Transaction.from_dict
        (Transaction.make 1 "2025-10-01" 50 "food" "x" "expense"
          none).to_dict =
      .ok (Transaction.make 1 "2025-10-01" 50 "food" "x" "expense" none) ∧
    load_data (.json (save_data
        (add_transaction Store.empty 1 "2025-10-01" 50 "food" "x"
          "expense"))) =
      .ok (add_transaction Store.empty 1 "2025-10-01" 50 "food" "x" "expense",
        false) :=
  ⟨make_wellFormed 1 "2025-10-01" 50 "food" "x" "expense" none,
   spec2proof_C2.1 _ (make_wellFormed 1 "2025-10-01" 50 "food" "x" "expense"
     none),
   (spec2proof_C2.2 Store.empty 1 "2025-10-01" 50 "food" "x" "expense"
     (fun t ht => absurd ht (List.not_mem_nil t))).2⟩

/-- C3: when every stored date parses, the period filter returns exactly the
transactions whose parsed date is ≥ now - days; when any stored date fails to
parse, the whole operation fails with the `ValueError` of `strptime` (the
spec's `DateParseError`), never silently skipping the transaction. -/
theorem spec2proof_C3 :
    (∀ (now : ℚ) (days : ℤ) (ts : List Transaction), allParse ts →
      get_transactions_by_period now days ts =
        .ok (ts.filter (inPeriod now days))) ∧
    ∀ (now : ℚ) (days : ℤ) (ts : List Transaction),
      (∃ t ∈ ts, parseDate t.date = none) →
      get_transactions_by_period now days ts = .error .valueError :=
  ⟨period_ok, period_err⟩

/-- Witness for C3: a parseable singleton store, and a store holding an
unparseable date. -/
theorem spec2proof_C3_witness :
    allParse [(⟨1, 50, "food", "x", "expense", "2025-10-01"⟩ : Transaction)] ∧
    get_transactions_by_period 20362 30
        [(⟨1, 50, "food", "x", "expense", "2025-10-01"⟩ : Transaction)] =
      .ok ([(⟨1, 50, "food", "x", "expense", "2025-10-01"⟩ :
        Transaction)].filter (inPeriod 20362 30)) ∧
    parseDate "not-a-date" = none ∧
    get_transactions_by_period 20362 30
        [(⟨2, 9, "a", "b", "expense", "not-a-date"⟩ : Transaction)] =
      .error .valueError :=
  ⟨by decide, spec2proof_C3.1 20362 30 _ (by decide), by decide,
   spec2proof_C3.2 20362 30 _
     ⟨⟨2, 9, "a", "b", "expense", "not-a-date"⟩,
      List.mem_singleton.mpr rfl, by decide⟩⟩

/-- C7: a constructed transaction stores the absolute value of the input
amount (hence is non-negative, and `-a` and `a` construct identical records
given the same creation instant), and every transaction deserialized from a
persisted record also has a non-negative amount. -/
theorem spec2proof_C7 :
    (∀ (now : ℚ) (nowDate : String) (amount : ℚ)
        (category description transaction_type : String)
        (date : Option String),
      (Transaction.make now nowDate amount category description
          transaction_type date).amount = |amount| ∧
      0 ≤ (Transaction.make now nowDate amount category description
          transaction_type date).amount ∧
      Transaction.make now nowDate (-amount) category description
          transaction_type date =
        Transaction.make now nowDate amount category description
          transaction_type date) ∧
    ∀ (v : JValue) (t : Transaction), Transaction.from_dict v = .ok t →
      0 ≤ t.amount := by
  constructor
  · intro now nowDate a c d ty dt
    refine ⟨rfl, abs_nonneg a, ?_⟩
    simp [Transaction.make, abs_neg]
  · intro v t h
    exact (from_dict_ok_wellFormed v t h).1

/-- Witness for C7: a concrete deserialized record has non-negative amount. -/
theorem spec2proof_C7_witness :
    Transaction.from_dict (Transaction.to_dict
        ⟨1, 50, "food", "x", "expense", "2025-10-01"⟩) =
      .ok ⟨1, 50, "food", "x", "expense", "2025-10-01"⟩ ∧
    0 ≤ (⟨1, 50, "food", "x", "expense", "2025-10-01"⟩ :
      Transaction).amount := by
  have hwf : (⟨1, 50, "food", "x", "expense", "2025-10-01"⟩ :
      Transaction).wellFormed := ⟨by norm_num, by decide, by decide⟩
  have h := from_dict_to_dict _ hwf
  exact ⟨h, spec2proof_C7.2 _ _ h⟩

/-- C8: every key `set_budget` inserts is the lowercased category, and the
lowercase-keys invariant is preserved both by `set_budget` and by loading a
file the tracker itself saved. -/
theorem spec2proof_C8 :
    ∀ s : Store, lowerKeys s.budgets →
      (∀ (category : String) (amount : ℚ),
        lowerKeys (set_budget s category amount).budgets ∧
        pyLower category ∈ keysOf (set_budget s category amount).budgets) ∧
      ((∀ t ∈ s.transactions, t.wellFormed) →
        ∃ p : Store × Bool, load_data (.json (save_data s)) = .ok p ∧
          lowerKeys p.1.budgets) := by
  intro s hl
  constructor
  · intro c a
    constructor
    · exact lowerKeys_dictSet s.budgets (pyLower c) a hl (pyLower_idem c)
    · exact keysOf_dictSet_self s.budgets (pyLower c) a
  · intro hwf
    exact ⟨(s, false), load_save s hwf, hl⟩

/-- Witness for C8 at a concrete store, setting a mixed-case category. -/
theorem spec2proof_C8_witness :
    lowerKeys (Store.mk [] [("food", 50)]).budgets ∧
    lowerKeys (set_budget (Store.mk [] [("food", 50)]) "Rent" 70).budgets ∧
    ∃ p : Store × Bool,
      load_data (.json (save_data (Store.mk [] [("food", 50)]))) = .ok p ∧
      lowerKeys p.1.budgets := by
  have hl : lowerKeys (Store.mk [] [("food", 50)]).budgets := by decide
  exact ⟨hl, ((spec2proof_C8 _ hl).1 "Rent" 70).1,
    (spec2proof_C8 _ hl).2 (fun t ht => absurd ht (List.not_mem_nil t))⟩

/-- C4: over any period, `get_spending_by_category` returns a mapping whose
keys are exactly the categories of expense transactions in the period (no
duplicates, income contributes nothing), whose values are those categories'
amount sums, ordered by descending total; no expenses in the period gives the
empty mapping. -/
theorem spec2proof_C4 :
    ∀ (now : ℚ) (days : ℤ) (ts : List Transaction), allParse ts →
    ∃ r, get_spending_by_category now days ts = .ok r ∧
      (keysOf r).Nodup ∧
      (∀ c, c ∈ keysOf r ↔ ∃ t ∈ ts.filter (inPeriod now days),
        t.type = "expense" ∧ t.category = c) ∧
      (∀ c v, (c, v) ∈ r → v = expSum c (ts.filter (inPeriod now days))) ∧
      r.Pairwise (fun a b => b.2 ≤ a.2) ∧
      ((∀ t ∈ ts.filter (inPeriod now days), t.type ≠ "expense") →
        r = []) := by
  intro now days ts h
  refine ⟨_, gsbc_ok now days ts h, spendingResult_nodup _,
    fun c => spendingResult_keys_mem _ c, ?_, sortSpending_sorted _, ?_⟩
  · intro c v hm
    rw [← lookup0_of_mem _ c v (spendingResult_nodup _) hm]
    exact spendingResult_lookup0 _ c
  · intro hno
    cases hr : sortSpending (spendingGroups
        (ts.filter (inPeriod now days))) with
    | nil => rfl
    | cons p rest =>
      exfalso
      have hp : p.1 ∈ keysOf (sortSpending (spendingGroups
          (ts.filter (inPeriod now days)))) := by
        rw [hr]
        simp [keysOf]
      obtain ⟨t, ht, h1, _⟩ := (spendingResult_keys_mem _ _).mp hp
      exact hno t ht h1

/-- Witness for C4 at a concrete store with one expense and one income
transaction. -/
theorem spec2proof_C4_witness :
    allParse [(⟨1, 50, "food", "x", "expense", "2025-10-01"⟩ : Transaction),
      ⟨2, 900, "salary", "y", "income", "2025-10-01"⟩] ∧
    ∃ r, get_spending_by_category 20362 30
        [(⟨1, 50, "food", "x", "expense", "2025-10-01"⟩ : Transaction),
         ⟨2, 900, "salary", "y", "income", "2025-10-01"⟩] = .ok r ∧
      (keysOf r).Nodup ∧
      (∀ c, c ∈ keysOf r ↔ ∃ t ∈
        [(⟨1, 50, "food", "x", "expense", "2025-10-01"⟩ : Transaction),
         ⟨2, 900, "salary", "y", "income", "2025-10-01"⟩].filter
           (inPeriod 20362 30), t.type = "expense" ∧ t.category = c) ∧
      (∀ c v, (c, v) ∈ r → v = expSum c
        ([(⟨1, 50, "food", "x", "expense", "2025-10-01"⟩ : Transaction),
          ⟨2, 900, "salary", "y", "income", "2025-10-01"⟩].filter
            (inPeriod 20362 30))) ∧
      r.Pairwise (fun a b => b.2 ≤ a.2) ∧
      ((∀ t ∈ [(⟨1, 50, "food", "x", "expense", "2025-10-01"⟩ : Transaction),
          ⟨2, 900, "salary", "y", "income", "2025-10-01"⟩].filter
            (inPeriod 20362 30), t.type ≠ "expense") → r = []) :=
  ⟨by decide, spec2proof_C4 20362 30 _ (by decide)⟩

/-- C5: `check_budgets` reports exactly the budgeted categories, in order;
each row's spent is that category's expense total over the fixed 30-day
window (the function takes no period argument), remaining is budget − spent,
and percentage is spent/budget·100 for a positive budget but 0 for any budget
≤ 0, so the zero-budget case never divides. -/
theorem spec2proof_C5 :
    ∀ (now : ℚ) (s : Store), allParse s.transactions →
    ∃ r, check_budgets now s = .ok r ∧
      r.map Prod.fst = keysOf s.budgets ∧
      ∀ p ∈ r,
        (p.1, p.2.budget) ∈ s.budgets ∧
        p.2.spent = expSum p.1 (s.transactions.filter (inPeriod now 30)) ∧
        p.2.remaining = p.2.budget - p.2.spent ∧
        (p.2.budget > (0 : ℚ) →
          p.2.percentage = p.2.spent / p.2.budget * 100) ∧
        (p.2.budget ≤ 0 → p.2.percentage = 0) := by
  intro now s h
  refine ⟨_, check_budgets_ok now s h, ?_, ?_⟩
  · simp only [List.map_map, keysOf]
    apply List.map_congr_left
    intro q _
    rfl
  · intro p hp
    obtain ⟨q, hq, rfl⟩ := List.mem_map.mp hp
    refine ⟨by simpa using hq, rfl, rfl, ?_, ?_⟩
    · intro hpos
      simp only [if_pos hpos]
    · intro hle
      simp only [if_neg (not_lt.mpr hle)]

/-- Witness for C5: the spec's concrete budget scenario (budget 100, expenses
40 and 70 within 30 days), plus a zero budget row. -/
theorem spec2proof_C5_witness :
    allParse (Store.mk
      [⟨1, 40, "food", "x", "expense", "2025-10-01"⟩,
       ⟨2, 70, "food", "y", "expense", "2025-10-02"⟩]
      [("food", 100), ("gas", 0)]).transactions ∧
    ∃ r, check_budgets 20363 (Store.mk
        [⟨1, 40, "food", "x", "expense", "2025-10-01"⟩,
         ⟨2, 70, "food", "y", "expense", "2025-10-02"⟩]
        [("food", 100), ("gas", 0)]) = .ok r ∧
      r.map Prod.fst = keysOf (Store.mk
        [⟨1, 40, "food", "x", "expense", "2025-10-01"⟩,
         ⟨2, 70, "food", "y", "expense", "2025-10-02"⟩]
        [("food", 100), ("gas", 0)]).budgets ∧
      ∀ p ∈ r,
        (p.1, p.2.budget) ∈ (Store.mk
          [⟨1, 40, "food", "x", "expense", "2025-10-01"⟩,
           ⟨2, 70, "food", "y", "expense", "2025-10-02"⟩]
          [("food", 100), ("gas", 0)]).budgets ∧
        p.2.spent = expSum p.1 ((Store.mk
          [⟨1, 40, "food", "x", "expense", "2025-10-01"⟩,
           ⟨2, 70, "food", "y", "expense", "2025-10-02"⟩]
          [("food", 100), ("gas", 0)]).transactions.filter
            (inPeriod 20363 30)) ∧
        p.2.remaining = p.2.budget - p.2.spent ∧
        (p.2.budget > (0 : ℚ) →
          p.2.percentage = p.2.spent / p.2.budget * 100) ∧
        (p.2.budget ≤ 0 → p.2.percentage = 0) :=
  ⟨by decide, spec2proof_C5 20363 _ (by decide)⟩

/-- C9: `get_income_vs_expenses` returns the independent income and expense
sums over the period with net = income − expenses, and an empty period yields
all three fields 0. -/
theorem spec2proof_C9 :
    ∀ (now : ℚ) (days : ℤ) (ts : List Transaction), allParse ts →
    ∃ r, get_income_vs_expenses now days ts = .ok r ∧
      r.income = sumAmounts (ts.filter (inPeriod now days)) "income" ∧
      r.expenses = sumAmounts (ts.filter (inPeriod now days)) "expense" ∧
      r.net = r.income - r.expenses ∧
      (ts.filter (inPeriod now days) = [] →
        r = { income := 0, expenses := 0, net := 0 }) := by
  intro now days ts h
  refine ⟨_, give_ok now days ts h, rfl, rfl, rfl, ?_⟩
  intro hempty
  simp [hempty, sumAmounts]

/-- Witness for C9: the spec's concrete scenario (income 1000, expense 50)
and the empty store. -/
theorem spec2proof_C9_witness :
    allParse [(⟨1, 50, "food", "x", "expense", "2025-10-01"⟩ : Transaction),
      ⟨2, 1000, "salary", "y", "income", "2025-10-01"⟩] ∧
    (∃ r, get_income_vs_expenses 20362 30
        [(⟨1, 50, "food", "x", "expense", "2025-10-01"⟩ : Transaction),
         ⟨2, 1000, "salary", "y", "income", "2025-10-01"⟩] = .ok r ∧
      r.income = sumAmounts
        ([(⟨1, 50, "food", "x", "expense", "2025-10-01"⟩ : Transaction),
          ⟨2, 1000, "salary", "y", "income", "2025-10-01"⟩].filter
            (inPeriod 20362 30)) "income" ∧
      r.expenses = sumAmounts
        ([(⟨1, 50, "food", "x", "expense", "2025-10-01"⟩ : Transaction),
          ⟨2, 1000, "salary", "y", "income", "2025-10-01"⟩].filter
            (inPeriod 20362 30)) "expense" ∧
      r.net = r.income - r.expenses ∧
      ([(⟨1, 50, "food", "x", "expense", "2025-10-01"⟩ : Transaction),
        ⟨2, 1000, "salary", "y", "income", "2025-10-01"⟩].filter
          (inPeriod 20362 30) = [] →
        r = { income := 0, expenses := 0, net := 0 })) ∧
    ∃ r₀, get_income_vs_expenses 20362 30 ([] : List Transaction) =
        .ok r₀ ∧
      r₀ = { income := 0, expenses := 0, net := 0 } := by
  refine ⟨by decide, spec2proof_C9 20362 30 _ (by decide), ?_⟩
  obtain ⟨r₀, h1, _, _, _, h2⟩ :=
    spec2proof_C9 20362 30 [] (fun t ht => absurd ht (List.not_mem_nil t))
  exact ⟨r₀, h1, h2 rfl⟩

theorem mem_iff_keysOf_lookup0 (l : List (String × ℚ))
    (hnd : (keysOf l).Nodup) (c : String) (v : ℚ) :
    (c, v) ∈ l ↔ c ∈ keysOf l ∧ lookup0 l c = v := by
  constructor
  · intro h
    exact ⟨List.mem_map_of_mem Prod.fst h, lookup0_of_mem l c v hnd h⟩
  · rintro ⟨h1, rfl⟩
    exact mem_of_keysOf l c h1

/-- C10: `get_spending_by_category` on two stores whose transaction lists are
permutations of each other returns the same mapping (the result lists are
permutations with identical lookups), and every entry of the result comes
from an expense transaction — income never contributes. -/
theorem spec2proof_C10 :
    ∀ (now : ℚ) (days : ℤ) (ts₁ ts₂ : List Transaction),
      List.Perm ts₁ ts₂ → allParse ts₁ →
      ∃ r₁ r₂, get_spending_by_category now days ts₁ = .ok r₁ ∧
        get_spending_by_category now days ts₂ = .ok r₂ ∧
        List.Perm r₁ r₂ ∧
        (∀ c, lookup0 r₁ c = lookup0 r₂ c) ∧
        (∀ p ∈ r₁, ∃ t ∈ ts₁, t.type = "expense" ∧ t.category = p.1) := by
  intro now days ts₁ ts₂ hp h₁
  have h₂ : allParse ts₂ := fun t ht => h₁ t (hp.mem_iff.mpr ht)
  have hfp : List.Perm (ts₁.filter (inPeriod now days))
      (ts₂.filter (inPeriod now days)) := hp.filter _
  have hsum : ∀ c, expSum c (ts₁.filter (inPeriod now days)) =
      expSum c (ts₂.filter (inPeriod now days)) := by
    intro c
    exact ((hfp.filter _).map _).sum_eq
  have hg : List.Perm
      (spendingGroups (ts₁.filter (inPeriod now days)))
      (spendingGroups (ts₂.filter (inPeriod now days))) := by
    apply (List.perm_ext_iff_of_nodup
      (List.Nodup.of_map Prod.fst (spendingGroups_keys_nodup _))
      (List.Nodup.of_map Prod.fst (spendingGroups_keys_nodup _))).mpr
    intro p
    cases p with
    | mk c v =>
      rw [mem_iff_keysOf_lookup0 _ (spendingGroups_keys_nodup _),
        mem_iff_keysOf_lookup0 _ (spendingGroups_keys_nodup _),
        spendingGroups_keys_mem, spendingGroups_keys_mem,
        spendingGroups_lookup0, spendingGroups_lookup0, hsum c]
      constructor
      · rintro ⟨⟨t, ht, h3, h4⟩, h5⟩
        exact ⟨⟨t, hfp.mem_iff.mp ht, h3, h4⟩, h5⟩
      · rintro ⟨⟨t, ht, h3, h4⟩, h5⟩
        exact ⟨⟨t, hfp.mem_iff.mpr ht, h3, h4⟩, h5⟩
  refine ⟨_, _, gsbc_ok now days ts₁ h₁, gsbc_ok now days ts₂ h₂, ?_, ?_, ?_⟩
  · exact ((sortSpending_perm _).trans hg).trans (sortSpending_perm _).symm
  · intro c
    rw [spendingResult_lookup0, spendingResult_lookup0, hsum c]
  · intro p hm
    have hk : p.1 ∈ keysOf (sortSpending (spendingGroups
        (ts₁.filter (inPeriod now days)))) := List.mem_map_of_mem Prod.fst hm
    obtain ⟨t, ht, h3, h4⟩ := (spendingResult_keys_mem _ _).mp hk
    exact ⟨t, List.mem_of_mem_filter ht, h3, h4⟩

/-- Witness for C10: swapping two transactions leaves the spending report
unchanged. -/
theorem spec2proof_C10_witness :
    List.Perm [(⟨1, 50, "food", "x", "expense", "2025-10-01"⟩ : Transaction),
        ⟨2, 30, "rent", "y", "expense", "2025-10-01"⟩]
      [(⟨2, 30, "rent", "y", "expense", "2025-10-01"⟩ : Transaction),
        ⟨1, 50, "food", "x", "expense", "2025-10-01"⟩] ∧
    allParse [(⟨1, 50, "food", "x", "expense", "2025-10-01"⟩ : Transaction),
      ⟨2, 30, "rent", "y", "expense", "2025-10-01"⟩] ∧
    ∃ r₁ r₂, get_spending_by_category 20362 30
        [(⟨1, 50, "food", "x", "expense", "2025-10-01"⟩ : Transaction),
         ⟨2, 30, "rent", "y", "expense", "2025-10-01"⟩] = .ok r₁ ∧
      get_spending_by_category 20362 30
        [(⟨2, 30, "rent", "y", "expense", "2025-10-01"⟩ : Transaction),
         ⟨1, 50, "food", "x", "expense", "2025-10-01"⟩] = .ok r₂ ∧
      List.Perm r₁ r₂ ∧
      (∀ c, lookup0 r₁ c = lookup0 r₂ c) ∧
      (∀ p ∈ r₁, ∃ t ∈
        [(⟨1, 50, "food", "x", "expense", "2025-10-01"⟩ : Transaction),
         ⟨2, 30, "rent", "y", "expense", "2025-10-01"⟩],
        t.type = "expense" ∧ t.category = p.1) :=
  ⟨List.Perm.swap _ _ _, by decide,
   spec2proof_C10 20362 30 _ _ (List.Perm.swap _ _ _) (by decide)⟩

/-- C6: `get_financial_insights` returns only the "no data" message when the
period holds no transactions; otherwise its recommendations are produced in
the deterministic order: the net-negative warning, then the independent
80%-spend-ratio warning, then per budgeted category — in `budget_status`
order — exactly the over-90% alert when percentage > 90, else the 75–90%
warning when percentage > 75, else nothing. -/
theorem spec2proof_C6 :
    ∀ (now : ℚ) (days : ℤ) (s : Store), allParse s.transactions →
      (s.transactions.filter (inPeriod now days) = [] →
        get_financial_insights now days s = .ok .noData) ∧
      (s.transactions.filter (inPeriod now days) ≠ [] →
        ∃ (i : Insights) (ive : IncomeExpenses)
          (bstatus : List (String × BudgetStatus)),
          get_financial_insights now days s = .ok (.insights i) ∧
          get_income_vs_expenses now days s.transactions = .ok ive ∧
          check_budgets now s = .ok bstatus ∧
          i.recommendations =
            (if ive.net < 0 then [Recommendation.overspending] else []) ++
            (if ive.income * (8 / 10) < ive.expenses then
              [Recommendation.highSpendRatio] else []) ++
            bstatus.flatMap perCategoryRecs) := by
  intro now days s h
  constructor
  · intro hempty
    simp only [get_financial_insights, period_ok now days s.transactions h,
      hempty, Bind.bind, Except.bind, Pure.pure, Except.pure, if_pos]
  · intro hne
    have hx : ∃ i, get_financial_insights now days s = .ok (.insights i) ∧
        i.recommendations =
          (if (sumAmounts (s.transactions.filter (inPeriod now days)) "income"
              - sumAmounts (s.transactions.filter (inPeriod now days))
                "expense") < 0 then [Recommendation.overspending] else []) ++
          (if sumAmounts (s.transactions.filter (inPeriod now days)) "income"
              * (8 / 10) < sumAmounts (s.transactions.filter
                (inPeriod now days)) "expense" then
            [Recommendation.highSpendRatio] else []) ++
          (s.budgets.map (fun p =>
            (p.1, ({ budget := p.2
                     spent := expSum p.1 (s.transactions.filter
                       (inPeriod now 30))
                     remaining := p.2 - expSum p.1 (s.transactions.filter
                       (inPeriod now 30))
                     percentage := if p.2 > (0 : ℚ) then
                         expSum p.1 (s.transactions.filter (inPeriod now 30))
                           / p.2 * 100
                       else 0 } : BudgetStatus)))).flatMap
            perCategoryRecs := by
      simp only [get_financial_insights, period_ok now days s.transactions h,
        gsbc_ok now days s.transactions h, give_ok now days s.transactions h,
        check_budgets_ok now s h, Bind.bind, Except.bind, Pure.pure,
        Except.pure, if_neg hne]
      refine ⟨_, rfl, ?_⟩
      simp only [budgetRecs_eq]
      by_cases hc1 : sumAmounts (s.transactions.filter (inPeriod now days))
          "income" - sumAmounts (s.transactions.filter (inPeriod now days))
            "expense" < 0 <;>
        by_cases hc2 : sumAmounts (s.transactions.filter (inPeriod now days))
            "income" * (8 / 10) <
          sumAmounts (s.transactions.filter (inPeriod now days)) "expense" <;>
        simp [hc1, hc2]
    obtain ⟨i, h1, h2⟩ := hx
    exact ⟨i, _, _, h1, give_ok now days s.transactions h,
      check_budgets_ok now s h, h2⟩

/-- Witness for C6: the spec's scenario — two food expenses of 40 and 70
against a 100 budget, no income — has a nonempty period and yields the full
insight report. -/
theorem spec2proof_C6_witness :
    allParse (Store.mk
      [⟨1, 40, "food", "x", "expense", "2025-10-01"⟩,
       ⟨2, 70, "food", "y", "expense", "2025-10-02"⟩]
      [("food", 100)]).transactions ∧
    (Store.mk
      [⟨1, 40, "food", "x", "expense", "2025-10-01"⟩,
       ⟨2, 70, "food", "y", "expense", "2025-10-02"⟩]
      [("food", 100)]).transactions.filter (inPeriod 20363 30) ≠ [] ∧
    ∃ (i : Insights) (ive : IncomeExpenses)
      (bstatus : List (String × BudgetStatus)),
      get_financial_insights 20363 30 (Store.mk
        [⟨1, 40, "food", "x", "expense", "2025-10-01"⟩,
         ⟨2, 70, "food", "y", "expense", "2025-10-02"⟩]
        [("food", 100)]) = .ok (.insights i) ∧
      get_income_vs_expenses 20363 30 (Store.mk
        [⟨1, 40, "food", "x", "expense", "2025-10-01"⟩,
         ⟨2, 70, "food", "y", "expense", "2025-10-02"⟩]
        [("food", 100)]).transactions = .ok ive ∧
      check_budgets 20363 (Store.mk
        [⟨1, 40, "food", "x", "expense", "2025-10-01"⟩,
         ⟨2, 70, "food", "y", "expense", "2025-10-02"⟩]
        [("food", 100)]) = .ok bstatus ∧
      i.recommendations =
        (if ive.net < 0 then [Recommendation.overspending] else []) ++
        (if ive.income * (8 / 10) < ive.expenses then
          [Recommendation.highSpendRatio] else []) ++
        bstatus.flatMap perCategoryRecs := by
  have hp : allParse (Store.mk
      [⟨1, 40, "food", "x", "expense", "2025-10-01"⟩,
       ⟨2, 70, "food", "y", "expense", "2025-10-02"⟩]
      [("food", 100)]).transactions := by decide
  have hne : (Store.mk
      [⟨1, 40, "food", "x", "expense", "2025-10-01"⟩,
       ⟨2, 70, "food", "y", "expense", "2025-10-02"⟩]
      [("food", 100)]).transactions.filter (inPeriod 20363 30) ≠ [] := by
    have h1 : parseDate "2025-10-01" = some 20362 := by decide
    have h2 : parseDate "2025-10-02" = some 20363 := by decide
    simp only [List.filter_cons, List.filter_nil, inPeriod, h1, h2,
      Option.getD_some, decide_eq_true_eq]
    norm_num
    exact List.cons_ne_nil _ _
  exact ⟨hp, hne, (spec2proof_C6 20363 30 _ hp).2 hne⟩

end FinanceTracker
